import Mathlib

/-!
A shallow embedding of the core of the `ncw/swift` Go client library
(request pipeline, status-to-error mapping, object read streams,
paginated listings, and the large-object engine), together with
theorems settling the specification's claims about it.

Machine integers of the Go code are modelled as `Int` (Go `int64` /
`int` — none of the verified code paths can overflow 64 bits on the
inputs considered), byte strings as `List Nat` of byte values, and Go
maps as association lists.  Network interactions are modelled by
passing the server's responses in explicitly (as lists of status codes
or as oracle functions).
-/

namespace Swift

/-- The error values of the library (`errors.New` values in the Go
source plus the structured `newError` of the later vintage).  `errorsNew`
carries the message string of an anonymous `errors.New`/`fmt.Errorf`
error; `newError` carries a status code and message. -/
inductive Err where
  | authorizationFailed
  | containerNotFound
  | containerNotEmpty
  | objectNotFound
  | objectCorrupted
  | errorsNew (msg : String)
  | newError (code : Int) (msg : String)
  deriving DecidableEq, Repr

/-- An `errorMap` (`map[int]error` in Go), modelled as an association
list from status codes to errors. -/
def ErrMap := List (Int × Err)

/-- Go map lookup `errorMap[statusCode]`. -/
def ErrMap.lookup (m : ErrMap) (code : Int) : Option Err :=
  List.lookup code m

/-- `authErrorMap = errorMap{401: AuthorizationFailed}`. -/
def authErrorMap : ErrMap := [(401, Err.authorizationFailed)]

/-- `containerErrorMap = errorMap{404: ContainerNotFound, 409: ContainerNotEmpty}`. -/
def containerErrorMap : ErrMap :=
  [(404, Err.containerNotFound), (409, Err.containerNotEmpty)]

/-- `objectErrorMap = errorMap{404: ObjectNotFound, 422: ObjectCorrupted}`. -/
def objectErrorMap : ErrMap :=
  [(404, Err.objectNotFound), (422, Err.objectCorrupted)]

/-- The message built by
`errors.New(fmt.Sprintf("HTTP Error: %d: %s", resp.StatusCode, resp.Status))`.
`resp.Status` is the status line text (e.g. `"404 Not Found"`). -/
def httpErrorMsg (statusCode : Int) (status : String) : String :=
  "HTTP Error: " ++ toString statusCode ++ ": " ++ status

/-- `Connection.parseHeaders` from the source: consult the per-call
error map first (when one was supplied); on a miss a status outside
200..299 becomes the generic `HTTP Error` and 2xx is success (`nil`). -/
def parseHeaders (statusCode : Int) (status : String) (errorMap : Option ErrMap) :
    Option Err :=
  match errorMap with
  | some m =>
    match m.lookup statusCode with
    | some e => some e
    | none =>
      if statusCode < 200 || statusCode > 299 then
        some (Err.errorsNew (httpErrorMsg statusCode status))
      else
        none
  | none =>
    if statusCode < 200 || statusCode > 299 then
      some (Err.errorsNew (httpErrorMsg statusCode status))
    else
      none

end Swift

namespace Swift

/-- `DEFAULT_RETRIES = 3`. -/
def DEFAULT_RETRIES : Nat := 3

/-- Result of a call: either the response's status code or an error. -/
inductive CallResult where
  | ok (status : Int)
  | err (e : Err)
  deriving DecidableEq, Repr

/-- Outcome of one `Connection.storage` call together with the
observable network activity. -/
structure PipelineTrace where
  /-- `.ok s`: the call returned the response with status `s`;
      `.err e`: the call returned error `e`. -/
  result : CallResult
  /-- how many requests were issued to the storage URL -/
  requests : Nat
  /-- how many times the token and storage URL were cleared
      (`UnAuthenticate`) and the request reissued -/
  reauths : Nat
  deriving DecidableEq, Repr

/-- The retry loop of `Connection.storage`: each iteration
(re-)authenticates if needed and issues the request; the server's
successive responses are the list `responses` (status codes, with
`statusText` giving each status line).  On a `403` with retries
remaining the response body is closed, `UnAuthenticate` clears the
token and storage URL, and the loop reissues the request; any other
response (or a `403` with no retries left) leaves the loop and is fed
to `parseHeaders` with the per-call error map.  `none` means the
supplied response list was shorter than the number of requests the
code would issue (never the case for the inputs considered). -/
def storageLoop (errorMap : Option ErrMap) (statusText : Int → String) :
    List Int → Nat → Nat → Nat → Option PipelineTrace
  | [], _, _, _ => none
  | s :: rest, retries, reqs, reauths =>
    if s = 403 ∧ 0 < retries then
      storageLoop errorMap statusText rest (retries - 1) (reqs + 1) (reauths + 1)
    else
      some { result :=
               match parseHeaders s (statusText s) errorMap with
               | some e => CallResult.err e
               | none => CallResult.ok s
             requests := reqs + 1
             reauths := reauths }

/-- `Connection.storage p`: the retry budget is `p.retries`, defaulting
to `DEFAULT_RETRIES` when the caller left it `0`. -/
def storage (errorMap : Option ErrMap) (statusText : Int → String)
    (retriesParam : Nat) (responses : List Int) : Option PipelineTrace :=
  storageLoop errorMap statusText responses
    (if retriesParam = 0 then DEFAULT_RETRIES else retriesParam) 0 0

/-- **C1 (counterexample).** The claim says a first `401` response is
discarded and the request transparently reissued after
re-authentication.  On the response sequence `[401, 200]` (with the
default retry budget and no per-call error map) the code in fact issues
exactly one request, performs no re-authentication, and surfaces the
`401` as an error — `401` is never the retried status (the loop retries
on `403` only). -/
theorem storage_claim_C1_counterexample :
    storage none (fun _ => "401 Unauthorized") 0 [401, 200] =
      some { result := CallResult.err (Err.errorsNew "HTTP Error: 401: 401 Unauthorized")
             requests := 1
             reauths := 0 } := by
  decide

/-- **C1 (amended).** For every call issued through `Connection.storage`,
when the server responds `403` and retries remain, the pipeline discards
the response, clears the stored token and storage URL
(`UnAuthenticate`), re-authenticates and reissues the request; this
happens while the retry budget lasts (`p.retries`, default 3), not at
most once; a `403` received with no retries remaining — and any
non-`403` status, in particular `401` — is not retried but handed to
`parseHeaders` and surfaced per the error map. -/
theorem storage_retries_on_403 (em : Option ErrMap) (st : Int → String)
    (s : Int) (rest : List Int) (retries reqs reauths : Nat) :
    (0 < retries →
      storageLoop em st (403 :: rest) retries reqs reauths =
        storageLoop em st rest (retries - 1) (reqs + 1) (reauths + 1)) ∧
    (¬ (s = 403 ∧ 0 < retries) →
      storageLoop em st (s :: rest) retries reqs reauths =
        some { result :=
                 match parseHeaders s (st s) em with
                 | some e => CallResult.err e
                 | none => CallResult.ok s
               requests := reqs + 1
               reauths := reauths }) ∧
    (storage em st 0 rest = storageLoop em st rest DEFAULT_RETRIES 0 0) := by
  refine ⟨fun h => ?_, fun h => ?_, rfl⟩
  · simp [storageLoop, h]
  · simp only [storageLoop, if_neg h]

/-- Witness for `storage_retries_on_403`: on responses `[403, 403, 403, 403]`
with the default budget the pipeline re-authenticates and reissues three
times and then surfaces the fourth `403`; on `[403, 200]` a single
transparent retry succeeds. -/
theorem storage_retries_on_403_witness :
    (0 < (3 : Nat) ∧ ¬ ((403 : Int) = 403 ∧ 0 < (0 : Nat)) ∧
      storage none (fun _ => "403 Forbidden") 0 [403, 403, 403, 403] =
        some { result := CallResult.err (Err.errorsNew "HTTP Error: 403: 403 Forbidden")
               requests := 4
               reauths := 3 }) ∧
    storage none (fun _ => "") 0 [403, 200] =
      some { result := CallResult.ok 200, requests := 2, reauths := 1 } := by
  constructor
  · refine ⟨by decide, by decide, ?_⟩
    have h1 := (storage_retries_on_403 none (fun _ => "403 Forbidden") 403 [403, 403, 403]
      3 0 0).2.2
    have h2 := (storage_retries_on_403 none (fun _ => "403 Forbidden") 403 [403, 403]
      3 0 0).1 (by decide)
    decide
  · decide

/-- The state of a swift object open for reading (`ObjectOpenFile`).
The HTTP response is represented by the fields the verified methods
consult: the `Etag` header and the body-close behaviour (passed to the
operations as an explicit argument). -/
structure ObjectOpenFile where
  /-- `checkHash`: true if checking MD5 -/
  checkHash : Bool
  /-- `resp.Header.Get("Etag")`: the server's Etag header -/
  etag : String
  /-- `fmt.Sprintf("%x", file.hash.Sum(nil))`: the hex digest of the
      MD5 accumulated over the bytes read so far -/
  hashHex : String
  /-- `bytes`: number of bytes read on this connection -/
  bytes : Int
  /-- `eof`: whether we have read end of file -/
  eof : Bool
  /-- `pos`: current position when reading -/
  pos : Int
  /-- `lengthOk`: whether `length` is valid (from `Content-Length`) -/
  lengthOk : Bool
  /-- `length`: length of the object if read -/
  length : Int
  /-- `seeked`: whether we have seeked this file or not -/
  seeked : Bool
  deriving DecidableEq, Repr

/-- `ObjectOpenFile.Read`: `n` bytes were delivered by the body
(`hitEOF` records whether the underlying read returned `io.EOF`);
the byte and position counters advance and the `eof` flag latches. -/
def ObjectOpenFile.read (file : ObjectOpenFile) (n : Int) (hitEOF : Bool) :
    ObjectOpenFile :=
  { file with
    bytes := file.bytes + n
    pos := file.pos + n
    eof := file.eof || hitEOF }

/-- `ObjectOpenFile.Close`: the response body is always closed (its
close error is `bodyCloseErr`, folded in by `checkClose` only when no
other error was produced).  If the file was read to EOF and never
seeked, the accumulated MD5 is compared against the lower-cased `Etag`
(when `checkHash`), and the byte count against the known length. -/
def ObjectOpenFile.close (file : ObjectOpenFile) (bodyCloseErr : Option Err) :
    Option Err :=
  let main : Option Err :=
    if !file.eof || file.seeked then
      none
    else if file.checkHash && file.etag.toLower != file.hashHex then
      some Err.objectCorrupted
    else if file.lengthOk && file.length != file.bytes then
      some Err.objectCorrupted
    else
      none
  match main with
  | some e => some e
  | none => bodyCloseErr

/-- **C4.** `Close` returns `ObjectCorrupted` exactly when the stream was
read to EOF and never seeked, and either hash checking is on and the
accumulated MD5 differs from the (lower-cased) server `Etag`, or the
length was known and the bytes read differ from it; when the stream was
seeked or not read to EOF no integrity check happens and `Close` returns
exactly the error from closing the response body.  (The hypothesis rules
out the response body itself failing to close with the `ObjectCorrupted`
value, which would make the "exactly" direction ambiguous.) -/
theorem objectOpenFile_close_spec (file : ObjectOpenFile) (bodyCloseErr : Option Err)
    (hbody : bodyCloseErr ≠ some Err.objectCorrupted) :
    (file.close bodyCloseErr = some Err.objectCorrupted ↔
      (file.eof = true ∧ file.seeked = false ∧
        ((file.checkHash = true ∧ file.etag.toLower ≠ file.hashHex) ∨
          (file.lengthOk = true ∧ file.length ≠ file.bytes)))) ∧
    ((file.eof = false ∨ file.seeked = true) →
      file.close bodyCloseErr = bodyCloseErr) := by
  constructor
  · unfold ObjectOpenFile.close
    rcases heof : file.eof with _ | _ <;> rcases hseek : file.seeked with _ | _ <;>
      simp only [Bool.not_true, Bool.not_false, Bool.true_or, Bool.or_true,
        Bool.false_or, if_true, if_false, Bool.true_and, Bool.false_and]
    · simpa using hbody
    · simpa using hbody
    · rcases hch : file.checkHash with _ | _ <;>
        rcases hlo : file.lengthOk with _ | _ <;>
        simp only [Bool.true_and, Bool.false_and, bne_iff_ne, ne_eq]
      · simpa using hbody
      · by_cases hlen : file.length = file.bytes <;> simp [hlen]
        simpa using hbody
      · by_cases hmd5 : file.etag.toLower = file.hashHex <;> simp [hmd5]
        simpa using hbody
      · by_cases hmd5 : file.etag.toLower = file.hashHex <;> simp [hmd5]
        by_cases hlen : file.length = file.bytes <;> simp [hlen]
        simpa using hbody
    · simpa using hbody
  · intro h
    unfold ObjectOpenFile.close
    rcases h with h | h <;> simp [h]

/-- Witness for `objectOpenFile_close_spec`: a stream read to EOF without
seeking whose byte count disagrees with the known length is reported
corrupted, and a seeked stream is not checked. -/
theorem objectOpenFile_close_spec_witness :
    ((none : Option Err) ≠ some Err.objectCorrupted) ∧
    ObjectOpenFile.close
      { checkHash := false, etag := "", hashHex := "", bytes := 4, eof := true,
        pos := 4, lengthOk := true, length := 5, seeked := false } none =
      some Err.objectCorrupted ∧
    ObjectOpenFile.close
      { checkHash := true, etag := "AA", hashHex := "bb", bytes := 4, eof := true,
        pos := 4, lengthOk := true, length := 5, seeked := true } none = none := by
  refine ⟨by simp, ?_, ?_⟩
  · exact ((objectOpenFile_close_spec _ none (by simp)).1).2
      ⟨rfl, rfl, Or.inr ⟨rfl, by decide⟩⟩
  · exact (objectOpenFile_close_spec _ none (by simp)).2 (Or.inr rfl)

/-- What `ObjectOpenFile.Seek` did on the network: either nothing, or it
closed the underlying body and reopened the object; `range` is the
value of the `Range` request header sent on the reopen (`none`: the
header was deleted, i.e. position 0). -/
inductive SeekNet where
  | noop
  | reopened (range : Option String)
  deriving DecidableEq, Repr

/-- Result of a non-panicking `ObjectOpenFile.Seek`. -/
structure SeekOutcome where
  /-- the returned offset -/
  newPos : Int
  /-- the returned error -/
  err : Option Err
  /-- the file state after the call -/
  file : ObjectOpenFile
  /-- the network activity performed -/
  net : SeekNet
  deriving DecidableEq, Repr

/-- Result of `ObjectOpenFile.Seek` including the `panic` branch of the
`switch` on `whence`. -/
inductive SeekResult where
  | panicked (msg : String)
  | ok (o : SeekOutcome)
  deriving DecidableEq, Repr

/-- The tail of `ObjectOpenFile.Seek` after `newPos` was computed: a seek
to the current position does nothing; otherwise the file is marked
seeked, the body closed (`bodyCloseErr` is the close error), the `Range`
header set to `bytes=<newPos>-` (deleted when `newPos = 0`), the object
reopened (`reopenErr` is the error from `ObjectOpen`, `none` on
success), and on success the stream disables hash checking and moves to
`newPos`. -/
def seekReopen (file : ObjectOpenFile) (newPos : Int)
    (bodyCloseErr reopenErr : Option Err) : SeekOutcome :=
  if newPos = file.pos then
    ⟨newPos, none, file, SeekNet.noop⟩
  else
    let file1 := { file with seeked := true }
    match file1.close bodyCloseErr with
    | some e => ⟨newPos, some e, file1, SeekNet.noop⟩
    | none =>
      let range : Option String :=
        if newPos > 0 then some ("bytes=" ++ toString newPos ++ "-") else none
      match reopenErr with
      | some e => ⟨newPos, some e, file1, SeekNet.reopened range⟩
      | none =>
        ⟨newPos, none,
          { file1 with checkHash := false, pos := newPos },
          SeekNet.reopened range⟩

/-- `ObjectOpenFile.Seek offset whence`: `whence` 0 is relative to the
start, 1 to the current offset, 2 to the end (requiring a known
length); any other `whence` panics. -/
def ObjectOpenFile.seek (file : ObjectOpenFile) (offset : Int) (whence : Int)
    (bodyCloseErr reopenErr : Option Err) : SeekResult :=
  if whence = 0 then
    SeekResult.ok (seekReopen file offset bodyCloseErr reopenErr)
  else if whence = 1 then
    SeekResult.ok (seekReopen file (file.pos + offset) bodyCloseErr reopenErr)
  else if whence = 2 then
    if !file.lengthOk then
      SeekResult.ok ⟨file.pos,
        some (Err.newError 0 "Length of file unknown so can't seek from end"),
        file, SeekNet.noop⟩
    else
      SeekResult.ok (seekReopen file (file.length + offset) bodyCloseErr reopenErr)
  else
    SeekResult.panicked "Unknown whence in ObjectOpenFile.Seek"

/-- **C5 (counterexample).** The claim says seeking past the end is
disallowed.  On a 5-byte object (known length, position 0) the call
`Seek(1, 2)` resolves to position 6 — past the end — yet the code does
not reject it: it closes and reopens the stream with
`Range: bytes=6-` and returns offset 6 with no error (the reopen
request is issued; any rejection could only come from the server). -/
theorem objectOpenFile_seek_claim_C5_counterexample :
    ObjectOpenFile.seek
      { checkHash := true, etag := "", hashHex := "", bytes := 0, eof := false,
        pos := 0, lengthOk := true, length := 5, seeked := false } 1 2 none none =
      SeekResult.ok
        ⟨6, none,
          { checkHash := false, etag := "", hashHex := "", bytes := 0, eof := false,
            pos := 6, lengthOk := true, length := 5, seeked := true },
          SeekNet.reopened (some "bytes=6-")⟩ := by
  decide

/-- **C5 (amended).** For every open read stream and `Seek(offset, whence)`
with `whence ∈ {0, 1, 2}`: seeking relative to the end fails when the
length is unknown (no network activity, position kept); a seek that
resolves to the current position is a no-op with no network activity;
any other seek (when body close and reopen succeed) closes the
underlying body and reopens the object with request header
`Range: bytes=<newPos>-` — no `Range` header when the new position
is 0 — and disables MD5 hash checking for the remainder of the stream.
Seeking past the end is *not* checked client-side: the reopen is issued
with the out-of-range `Range` header and any rejection comes from the
server. -/
theorem objectOpenFile_seek_spec (file : ObjectOpenFile) (offset : Int)
    (reopenErr : Option Err) :
    (file.lengthOk = false →
      file.seek offset 2 none reopenErr =
        SeekResult.ok ⟨file.pos,
          some (Err.newError 0 "Length of file unknown so can't seek from end"),
          file, SeekNet.noop⟩) ∧
    (offset = file.pos →
      file.seek offset 0 none reopenErr =
        SeekResult.ok ⟨file.pos, none, file, SeekNet.noop⟩) ∧
    (offset ≠ file.pos → 0 < offset →
      file.seek offset 0 none none =
        SeekResult.ok ⟨offset, none,
          { file with seeked := true, checkHash := false, pos := offset },
          SeekNet.reopened (some ("bytes=" ++ toString offset ++ "-"))⟩) ∧
    (offset = 0 → file.pos ≠ 0 →
      file.seek offset 0 none none =
        SeekResult.ok ⟨0, none,
          { file with seeked := true, checkHash := false, pos := 0 },
          SeekNet.reopened none⟩) := by
  have hclose : ∀ f : ObjectOpenFile, f.seeked = true → f.close none = none := by
    intro f hf
    unfold ObjectOpenFile.close
    simp [hf]
  refine ⟨fun h => ?_, fun h => ?_, fun h h0 => ?_, fun h h0 => ?_⟩
  · simp [ObjectOpenFile.seek, h]
  · simp [ObjectOpenFile.seek, seekReopen, h]
  · have hc := hclose { file with seeked := true } rfl
    rw [ObjectOpenFile.seek, if_pos rfl, seekReopen, if_neg h]
    simp only [hc]
    simp [h0]
  · subst h
    have hc := hclose { file with seeked := true } rfl
    rw [ObjectOpenFile.seek, if_pos rfl, seekReopen, if_neg (Ne.symm h0)]
    simp only [hc]
    simp

/-- Witness for `objectOpenFile_seek_spec`: evaluated on a stream with
unknown length (end-relative seek fails), on a no-op seek, and on a
forward seek to offset 3 (reopened with `Range: bytes=3-`, hash checking
off). -/
theorem objectOpenFile_seek_spec_witness :
    (ObjectOpenFile.seek
      { checkHash := true, etag := "", hashHex := "", bytes := 0, eof := false,
        pos := 2, lengthOk := false, length := 0, seeked := false } 1 2 none none =
      SeekResult.ok ⟨2,
        some (Err.newError 0 "Length of file unknown so can't seek from end"),
        { checkHash := true, etag := "", hashHex := "", bytes := 0, eof := false,
          pos := 2, lengthOk := false, length := 0, seeked := false },
        SeekNet.noop⟩) ∧
    (ObjectOpenFile.seek
      { checkHash := true, etag := "", hashHex := "", bytes := 2, eof := false,
        pos := 2, lengthOk := false, length := 0, seeked := false } 2 0 none none =
      SeekResult.ok ⟨2, none,
        { checkHash := true, etag := "", hashHex := "", bytes := 2, eof := false,
          pos := 2, lengthOk := false, length := 0, seeked := false },
        SeekNet.noop⟩) ∧
    (ObjectOpenFile.seek
      { checkHash := true, etag := "", hashHex := "", bytes := 0, eof := false,
        pos := 0, lengthOk := true, length := 5, seeked := false } 3 0 none none =
      SeekResult.ok ⟨3, none,
        { checkHash := false, etag := "", hashHex := "", bytes := 0, eof := false,
          pos := 3, lengthOk := true, length := 5, seeked := true },
        SeekNet.reopened (some "bytes=3-")⟩) := by
  refine ⟨?_, ?_, ?_⟩
  · exact (objectOpenFile_seek_spec _ 1 none).1 rfl
  · exact (objectOpenFile_seek_spec _ 2 none).2.1 rfl
  · exact (objectOpenFile_seek_spec _ 3 none).2.2.1 (by decide) (by decide)

/-- **C10.** `ObjectOpenFile.Seek` is total only for `whence ∈ {0, 1, 2}`:
for any other `whence` it panics with
`"Unknown whence in ObjectOpenFile.Seek"` instead of returning an
error, and for `whence ∈ {0, 1, 2}` the panic branch is unreachable
(the call always returns a result). -/
theorem objectOpenFile_seek_panic_spec (file : ObjectOpenFile) (offset whence : Int)
    (bodyCloseErr reopenErr : Option Err) :
    (whence ≠ 0 → whence ≠ 1 → whence ≠ 2 →
      file.seek offset whence bodyCloseErr reopenErr =
        SeekResult.panicked "Unknown whence in ObjectOpenFile.Seek") ∧
    (whence = 0 ∨ whence = 1 ∨ whence = 2 →
      ∀ msg, file.seek offset whence bodyCloseErr reopenErr ≠ SeekResult.panicked msg) := by
  constructor
  · intro h0 h1 h2
    simp [ObjectOpenFile.seek, h0, h1, h2]
  · rintro (h | h | h) msg <;> subst h <;>
      simp only [ObjectOpenFile.seek] <;> norm_num <;>
      first
        | simp
        | (split <;> simp)

/-- Witness for `objectOpenFile_seek_panic_spec`: `whence = 7` panics,
`whence = 1` does not. -/
theorem objectOpenFile_seek_panic_spec_witness :
    (ObjectOpenFile.seek
      { checkHash := true, etag := "", hashHex := "", bytes := 0, eof := false,
        pos := 0, lengthOk := false, length := 0, seeked := false } 0 7 none none =
      SeekResult.panicked "Unknown whence in ObjectOpenFile.Seek") ∧
    (ObjectOpenFile.seek
      { checkHash := true, etag := "", hashHex := "", bytes := 0, eof := false,
        pos := 0, lengthOk := false, length := 0, seeked := false } 0 1 none none ≠
      SeekResult.panicked "Unknown whence in ObjectOpenFile.Seek") := by
  constructor
  · exact (objectOpenFile_seek_panic_spec _ 0 7 none none).1
      (by decide) (by decide) (by decide)
  · exact (objectOpenFile_seek_panic_spec _ 0 1 none none).2
      (Or.inr (Or.inl rfl)) _

/-- The fields of the large-object write handle
(`LargeObjectCreateFile`) that its `Seek` method touches. -/
structure LargeObjectCreateFile where
  /-- `currentLength`: total logical size of the object -/
  currentLength : Int
  /-- `filePos`: the write cursor -/
  filePos : Int
  deriving DecidableEq, Repr

/-- `LargeObjectCreateFile.Seek offset whence`: the `switch` assigns the
new `filePos` first (for an invalid `whence` it returns `(-1, error)`
without touching the handle) and only then checks for a negative
position, returning `(-1, error)` — with the handle keeping the
already-assigned negative `filePos`. -/
def LargeObjectCreateFile.seek (file : LargeObjectCreateFile)
    (offset : Int) (whence : Int) : (Int × Option Err) × LargeObjectCreateFile :=
  if whence = 0 then
    seekCheck { file with filePos := offset }
  else if whence = 1 then
    seekCheck { file with filePos := file.filePos + offset }
  else if whence = 2 then
    seekCheck { file with filePos := file.currentLength + offset }
  else
    ((-1, some (Err.errorsNew "invalid value for whence")), file)
where
  /-- the `if file.filePos < 0` check following the `switch` -/
  seekCheck (f : LargeObjectCreateFile) : (Int × Option Err) × LargeObjectCreateFile :=
    if f.filePos < 0 then ((-1, some (Err.errorsNew "negative offset")), f)
    else ((f.filePos, none), f)

/-- **C9 (counterexample).** The claim says that when `Seek` returns an
error the handle keeps the non-negative `filePos` it had before the
call.  Starting from `filePos = 0`, `Seek(-1, 0)` returns the error
`"negative offset"` — but the handle's `filePos` is now `-1`, because
the code assigns `filePos` before validating it.  The invariant
`0 ≤ filePos` is therefore broken by this error path. -/
theorem largeObjectCreateFile_seek_claim_C9_counterexample :
    LargeObjectCreateFile.seek ⟨0, 0⟩ (-1) 0 =
      ((-1, some (Err.errorsNew "negative offset")), ⟨0, -1⟩) ∧
    ¬ (0 ≤ (LargeObjectCreateFile.seek ⟨0, 0⟩ (-1) 0).2.filePos) := by
  constructor
  · rfl
  · decide

/-- **C9 (amended).** For every large-object write handle with
`0 ≤ filePos` and every `Seek(offset, whence)`: on success `Seek`
returns the new position, which is non-negative and equals the handle's
new `filePos`; on an invalid `whence` it returns an error and leaves
`filePos` unchanged (still non-negative); but when the computed
position is negative, it returns an error *and stores the negative
position in the handle*, so `0 ≤ filePos` survives every outcome except
the negative-position error, where the handle is left with the negative
computed value. -/
theorem largeObjectCreateFile_seek_spec (file : LargeObjectCreateFile)
    (offset whence : Int) (hpos : 0 ≤ file.filePos) :
    (∀ r f', file.seek offset whence = ((r, none), f') →
      0 ≤ r ∧ f'.filePos = r ∧ 0 ≤ f'.filePos) ∧
    (whence ≠ 0 → whence ≠ 1 → whence ≠ 2 →
      file.seek offset whence =
        ((-1, some (Err.errorsNew "invalid value for whence")), file) ∧
      0 ≤ file.filePos) ∧
    (whence = 0 → offset < 0 →
      file.seek offset whence =
        ((-1, some (Err.errorsNew "negative offset")), { file with filePos := offset }) ∧
      ¬ 0 ≤ (file.seek offset whence).2.filePos) := by
  refine ⟨?_, fun h0 h1 h2 => ?_, fun h hneg => ?_⟩
  · intro r f' h
    unfold LargeObjectCreateFile.seek at h
    split_ifs at h <;>
      [skip; skip; skip; simp at h] <;>
      · unfold LargeObjectCreateFile.seek.seekCheck at h
        split_ifs at h with hlt
        · simp at h
        · simp only [Prod.mk.injEq] at h
          obtain ⟨⟨hr, -⟩, hf⟩ := h
          subst hf
          subst hr
          simp only [not_lt] at hlt
          exact ⟨hlt, rfl, hlt⟩
  · refine ⟨?_, hpos⟩
    unfold LargeObjectCreateFile.seek
    simp [h0, h1, h2]
  · subst h
    have hneg2 : ({ file with filePos := offset } : LargeObjectCreateFile).filePos < 0 :=
      hneg
    have hres : file.seek offset 0 =
        ((-1, some (Err.errorsNew "negative offset")), { file with filePos := offset }) := by
      unfold LargeObjectCreateFile.seek LargeObjectCreateFile.seek.seekCheck
      simp [hneg2]
    refine ⟨hres, ?_⟩
    rw [hres]
    simpa using hneg

/-- Witness for `largeObjectCreateFile_seek_spec`: evaluated at a handle
with `currentLength = 10`, `filePos = 4`: `Seek(2, 1)` succeeds moving to
6; `Seek(0, 9)` errors leaving `filePos = 4`; `Seek(-7, 1)` errors
leaving `filePos = -3`. -/
theorem largeObjectCreateFile_seek_spec_witness :
    ((0 : Int) ≤ 4) ∧
    LargeObjectCreateFile.seek ⟨10, 4⟩ 2 1 = ((6, none), ⟨10, 6⟩) ∧
    (0 ≤ (6 : Int) ∧ (6 : Int) = 6 ∧ 0 ≤ (6 : Int)) ∧
    LargeObjectCreateFile.seek ⟨10, 4⟩ 0 9 =
      ((-1, some (Err.errorsNew "invalid value for whence")), ⟨10, 4⟩) ∧
    LargeObjectCreateFile.seek ⟨10, 4⟩ (-7) 1 =
      ((-1, some (Err.errorsNew "negative offset")), ⟨10, -3⟩) := by
  have h1 : LargeObjectCreateFile.seek ⟨10, 4⟩ 2 1 = ((6, none), ⟨10, 6⟩) := by rfl
  refine ⟨by norm_num, h1, ?_, ?_, by rfl⟩
  · exact (largeObjectCreateFile_seek_spec ⟨10, 4⟩ 2 1 (by norm_num)).1 6 ⟨10, 6⟩ h1
  · exact ((largeObjectCreateFile_seek_spec ⟨10, 4⟩ 0 9 (by norm_num)).2.1
      (by norm_num) (by norm_num) (by norm_num)).1

/-- `Headers` (`map[string]string`), modelled as an association list. -/
abbrev Headers := List (String × String)

/-- Go map read `headers[k]` (missing key yields the empty string). -/
def Headers.get (h : Headers) (k : String) : String :=
  (List.lookup k h).getD ""

/-- Go map lookup as an `Option`. -/
def Headers.find (h : Headers) (k : String) : Option String :=
  List.lookup k h

/-- Go map write `headers[k] = v`.  Go maps are unordered, so the
model fixes a canonical representative: the new binding in front of the
other keys (lookup-equivalent to replacing the binding in place). -/
def Headers.set (h : Headers) (k v : String) : Headers :=
  (k, v) :: h.filter (fun kv => !(kv.1 == k))

/-- `strings.HasPrefix`, computed on the character lists (so that it
evaluates by kernel reduction). -/
def stringsHasPrefix (p s : String) : Bool :=
  p.data.isPrefixOf s.data

/-- `sanitizeLargeObjectMoveHeaders`: keep exactly the headers whose
name begins with `"X-"` (the source comment notes that fields such as
`X-Timestamp`, `X-Trans-Id`, `X-Openstack-Request-Id` do not affect the
request because the server regenerates them — they are kept, not
dropped). -/
def sanitizeLargeObjectMoveHeaders (headers : Headers) : Headers :=
  headers.filter (fun kv => stringsHasPrefix "X-" kv.1)

/-- Split a character list at the first `/` (the char-level core of
`strings.SplitN(s, "/", 2)`): returns the part before the first slash
and, when a slash exists, the part after it. -/
def breakSlash : List Char → List Char × Option (List Char)
  | [] => ([], none)
  | c :: cs =>
    if c = '/' then ([], some cs)
    else
      let r := breakSlash cs
      (c :: r.1, r.2)

/-- `parseFullPath`: `strings.SplitN(manifest, "/", 2)` — the container
is everything before the first `/`, the prefix everything after it
(empty when there is no `/`). -/
def parseFullPath (manifest : String) : String × String :=
  match breakSlash manifest.data with
  | (a, none) => (String.mk a, "")
  | (a, some rest) => (String.mk a, String.mk rest)

theorem Headers.lookup_filter_key (p : String → Bool) (l : Headers) (k : String) :
    List.lookup k (l.filter (fun kv => p kv.1)) =
      if p k then List.lookup k l else none := by
  induction l with
  | nil => simp
  | cons kv t ih =>
    simp only [List.filter_cons]
    by_cases hp : p kv.1
    · rw [if_pos hp]
      by_cases hk : k = kv.1
      · subst hk
        simp [List.lookup, hp]
      · have hb : (k == kv.1) = false := by simp [hk]
        simp [List.lookup, hb, ih]
    · rw [if_neg hp, ih]
      by_cases hk : k = kv.1
      · subst hk
        simp [hp]
      · have hb : (k == kv.1) = false := by simp [hk]
        simp [List.lookup, hb]

theorem Headers.find_set_self (h : Headers) (k v : String) :
    (h.set k v).find k = some v := by
  simp [Headers.set, Headers.find, List.lookup]

theorem Headers.find_set_other (h : Headers) (k v k' : String) (hne : k' ≠ k) :
    (h.set k v).find k' = h.find k' := by
  have hb : (k' == k) = false := by simpa using hne
  simp only [Headers.set, Headers.find, List.lookup, hb]
  rw [Headers.lookup_filter_key (fun key => !(key == k)) h k']
  simp [hb]

theorem Headers.find_filter_key (l : Headers) (k : String) :
    (sanitizeLargeObjectMoveHeaders l).find k =
      if stringsHasPrefix "X-" k then l.find k else none := by
  simp only [sanitizeLargeObjectMoveHeaders, Headers.find]
  exact Headers.lookup_filter_key (fun key => stringsHasPrefix "X-" key) l k

/-- One network operation performed by `DynamicLargeObjectMove`. -/
inductive MoveOp where
  /-- `c.Object`: HEAD of the named object -/
  | stat (container object : String)
  /-- `createDLOManifest`: PUT of a zero-byte manifest whose headers
      carry `X-Object-Manifest = prefix` -/
  | createManifest (container object pfx contentType : String) (headers : Headers)
  /-- `c.ObjectDelete` -/
  | delete (container object : String)
  deriving DecidableEq, Repr

/-- `DynamicLargeObjectMove` (success path): HEAD the source manifest,
create the destination manifest pointing at the same segment prefix
with the sanitized source headers (plus `X-Object-Manifest`), then
delete the source manifest object.  No operation touches segment
objects. -/
def dynamicLargeObjectMove (srcContainer srcObjectName dstContainer dstObjectName : String)
    (srcContentType : String) (srcHeaders : Headers) : List MoveOp :=
  let fullPath := parseFullPath (srcHeaders.get "X-Object-Manifest")
  let prefixArg := fullPath.1 ++ "/" ++ fullPath.2
  [ MoveOp.stat srcContainer srcObjectName,
    MoveOp.createManifest dstContainer dstObjectName prefixArg srcContentType
      ((sanitizeLargeObjectMoveHeaders srcHeaders).set "X-Object-Manifest" prefixArg),
    MoveOp.delete srcContainer srcObjectName ]

/-- **C8 (counterexample).** The claim says `X-Timestamp`, `X-Trans-Id`
and `X-Openstack-Request-Id` are removed from the headers carried to the
destination manifest.  They are not: the sanitizer keeps every header
whose name begins with `X-` (the source comment only remarks that the
server will regenerate them).  Moving a manifest whose headers carry
`X-Timestamp: 123` writes a destination manifest that still carries
`X-Timestamp: 123`. -/
theorem dynamicLargeObjectMove_claim_C8_counterexample :
    sanitizeLargeObjectMoveHeaders [("X-Timestamp", "123")] = [("X-Timestamp", "123")] ∧
    dynamicLargeObjectMove "src" "obj" "dst" "obj2" "text/plain"
        [("X-Object-Manifest", "segcont/segs/abc/def"), ("X-Timestamp", "123")] =
      [ MoveOp.stat "src" "obj",
        MoveOp.createManifest "dst" "obj2" "segcont/segs/abc/def" "text/plain"
          [("X-Object-Manifest", "segcont/segs/abc/def"), ("X-Timestamp", "123")],
        MoveOp.delete "src" "obj" ] := by
  constructor
  · decide
  · decide

/-- **C8 (amended).** When a large object is moved
(`DynamicLargeObjectMove`), the header set written to the destination
manifest consists of exactly the source manifest's headers whose names
begin with `X-` — including `X-Timestamp`, `X-Trans-Id` and
`X-Openstack-Request-Id`, which are carried over, not removed — with
`X-Object-Manifest` (re)bound to the segment path parsed from the
source manifest; the destination manifest is created first and the
source manifest object deleted afterwards, and segment objects are
neither copied nor deleted (the trace holds no operation besides the
HEAD of the source, the manifest PUT and the source delete). -/
theorem dynamicLargeObjectMove_spec (srcC srcO dstC dstO ct : String)
    (srcHeaders : Headers) (k : String) :
    ∃ h : Headers,
      dynamicLargeObjectMove srcC srcO dstC dstO ct srcHeaders =
        [ MoveOp.stat srcC srcO,
          MoveOp.createManifest dstC dstO
            ((parseFullPath (srcHeaders.get "X-Object-Manifest")).1 ++ "/" ++
              (parseFullPath (srcHeaders.get "X-Object-Manifest")).2) ct h,
          MoveOp.delete srcC srcO ] ∧
      h.find "X-Object-Manifest" =
        some ((parseFullPath (srcHeaders.get "X-Object-Manifest")).1 ++ "/" ++
          (parseFullPath (srcHeaders.get "X-Object-Manifest")).2) ∧
      (k ≠ "X-Object-Manifest" →
        h.find k =
          if stringsHasPrefix "X-" k then srcHeaders.find k else none) := by
  refine ⟨_, rfl, ?_, ?_⟩
  · exact Headers.find_set_self ..
  · intro hk
    rw [Headers.find_set_other _ "X-Object-Manifest" _ k hk]
    exact Headers.find_filter_key ..

/-- Witness for `dynamicLargeObjectMove_spec`: evaluated on a source
manifest with an `X-Timestamp` header, a non-`X-` header and a probe for
the dropped key `Content-Length`. -/
theorem dynamicLargeObjectMove_spec_witness :
    ∃ h : Headers,
      dynamicLargeObjectMove "c1" "o1" "c2" "o2" "image/jpeg"
          [("X-Object-Manifest", "sc/p"), ("X-Timestamp", "7"), ("Content-Length", "0")] =
        [ MoveOp.stat "c1" "o1",
          MoveOp.createManifest "c2" "o2"
            ((parseFullPath (Headers.get
                [("X-Object-Manifest", "sc/p"), ("X-Timestamp", "7"), ("Content-Length", "0")]
                "X-Object-Manifest")).1 ++ "/" ++
              (parseFullPath (Headers.get
                [("X-Object-Manifest", "sc/p"), ("X-Timestamp", "7"), ("Content-Length", "0")]
                "X-Object-Manifest")).2) "image/jpeg" h,
          MoveOp.delete "c1" "o1" ] ∧
      h.find "X-Object-Manifest" =
        some ((parseFullPath (Headers.get
            [("X-Object-Manifest", "sc/p"), ("X-Timestamp", "7"), ("Content-Length", "0")]
            "X-Object-Manifest")).1 ++ "/" ++
          (parseFullPath (Headers.get
            [("X-Object-Manifest", "sc/p"), ("X-Timestamp", "7"), ("Content-Length", "0")]
            "X-Object-Manifest")).2) ∧
      ("Content-Length" ≠ "X-Object-Manifest" →
        h.find "Content-Length" =
          if stringsHasPrefix "X-" "Content-Length" then
            Headers.find
              [("X-Object-Manifest", "sc/p"), ("X-Timestamp", "7"), ("Content-Length", "0")]
              "Content-Length"
          else none) :=
  dynamicLargeObjectMove_spec "c1" "o1" "c2" "o2" "image/jpeg"
    [("X-Object-Manifest", "sc/p"), ("X-Timestamp", "7"), ("Content-Length", "0")]
    "Content-Length"

/-- The fields of the `Object` listing entry that the verified code
reads (`Name`, `Bytes`, `Hash`). -/
structure Object where
  Name : String
  Bytes : Int
  Hash : String
  deriving DecidableEq, Repr

/-- `objectsAllOpts opts Limit`: the caller's `Limit` is kept unless it
was `0`, in which case the supplied default is used (the caller's
`Marker` is unconditionally reset to `""`, which is why the walk below
always starts from the empty marker). -/
def objectsAllOpts (callerLimit defaultLimit : Nat) : Nat :=
  if callerLimit = 0 then defaultLimit else callerLimit

/-- The loop of `Connection.ObjectsWalk`.  `fetch limit marker` is the
page the server returns for one base-listing call (`Objects` or
`ObjectNames`); `name` extracts the listing name of an entry (identity
for `[]string`, `.Name` for `[]Object`).  Each iteration fetches a
page; if it holds fewer than `limit` entries the walk stops, otherwise
it continues with `marker` set to the last entry's name.  The result is
the list of pages; `none` means the fuel was smaller than the number of
pages the code would fetch. -/
def objectsWalkLoop {α : Type} (fetch : Nat → String → List α)
    (name : α → String) (limit : Nat) : Nat → String → Option (List (List α))
  | 0, _ => none
  | fuel + 1, marker =>
    let page := fetch limit marker
    let last : String :=
      match page.getLast? with
      | some x => name x
      | none => ""
    if page.length < limit then
      some [page]
    else
      (objectsWalkLoop fetch name limit fuel last).map (page :: ·)

/-- `Connection.ObjectNamesAll`: walk the pages starting from the empty
marker with the (defaulted) limit, and return the concatenation. -/
def objectNamesAll (fetch : Nat → String → List String)
    (callerLimit : Nat) (defaultLimit : Nat) (fuel : Nat) : Option (List String) :=
  (objectsWalkLoop fetch id (objectsAllOpts callerLimit defaultLimit) fuel "").map
    List.flatten

/-- `Connection.ObjectsAll`: same walk over `[]Object` pages. -/
def objectsAll (fetch : Nat → String → List Object)
    (callerLimit : Nat) (defaultLimit : Nat) (fuel : Nat) : Option (List Object) :=
  (objectsWalkLoop fetch Object.Name (objectsAllOpts callerLimit defaultLimit)
    fuel "").map List.flatten

/-- The pagination behaviour as the specification words it: the first
page is fetched with the given marker, every subsequent page with
marker equal to the name of the last entry of the previous page, and
the iteration stops exactly at the first page with fewer than `limit`
entries. -/
inductive WalkTrace {α : Type} (fetch : Nat → String → List α) (name : α → String)
    (limit : Nat) : String → List (List α) → Prop where
  | stop (marker : String) (h : (fetch limit marker).length < limit) :
      WalkTrace fetch name limit marker [fetch limit marker]
  | step (marker : String) (h : ¬ (fetch limit marker).length < limit)
      (rest : List (List α))
      (hr : WalkTrace fetch name limit
        (match (fetch limit marker).getLast? with
          | some x => name x
          | none => "") rest) :
      WalkTrace fetch name limit marker (fetch limit marker :: rest)

theorem objectsWalkLoop_walkTrace {α : Type} (fetch : Nat → String → List α)
    (name : α → String) (limit : Nat) :
    ∀ (fuel : Nat) (marker : String) (pages : List (List α)),
      objectsWalkLoop fetch name limit fuel marker = some pages →
      WalkTrace fetch name limit marker pages := by
  intro fuel
  induction fuel with
  | zero => intro marker pages h; simp [objectsWalkLoop] at h
  | succ n ih =>
    intro marker pages h
    rw [objectsWalkLoop] at h
    by_cases hlt : (fetch limit marker).length < limit
    · rw [if_pos hlt] at h
      obtain rfl : [fetch limit marker] = pages := by simpa using h
      exact WalkTrace.stop marker hlt
    · rw [if_neg hlt, Option.map_eq_some'] at h
      obtain ⟨rest, hrest, rfl⟩ := h
      exact WalkTrace.step marker hlt rest (ih _ rest hrest)

theorem walkTrace_objectsWalkLoop {α : Type} (fetch : Nat → String → List α)
    (name : α → String) (limit : Nat) (marker : String) (pages : List (List α))
    (h : WalkTrace fetch name limit marker pages) :
    objectsWalkLoop fetch name limit pages.length marker = some pages := by
  induction h with
  | stop marker h => simp [objectsWalkLoop, h]
  | step marker h rest hr ih =>
    simp only [List.length_cons, objectsWalkLoop, if_neg h]
    rw [ih]
    rfl

/-- **C7.** For every paginated listing (`ObjectNamesAll` via
`ObjectsWalk`): the effective limit is the caller's `Limit` or, when the
caller left it `0`, the supplied default; the walk starts from the empty
marker; whenever the walk completes with page list `pages`, those pages
obey the claimed discipline (each page after the first is fetched with
marker equal to the name of the last entry of the previous page, the
walk stops exactly at the first page with fewer than `limit` entries —
`WalkTrace`), and conversely any such page discipline is what the loop
produces; `ObjectNamesAll` returns the concatenation of the pages. -/
theorem objectNamesAll_pagination_spec (fetch : Nat → String → List String)
    (callerLimit defaultLimit fuel : Nat) (pages : List (List String)) :
    (callerLimit = 0 → objectsAllOpts callerLimit defaultLimit = defaultLimit) ∧
    (callerLimit ≠ 0 → objectsAllOpts callerLimit defaultLimit = callerLimit) ∧
    (objectsWalkLoop fetch id (objectsAllOpts callerLimit defaultLimit) fuel "" =
        some pages →
      WalkTrace fetch id (objectsAllOpts callerLimit defaultLimit) "" pages ∧
      objectNamesAll fetch callerLimit defaultLimit fuel = some pages.flatten) ∧
    (WalkTrace fetch id (objectsAllOpts callerLimit defaultLimit) "" pages →
      objectsWalkLoop fetch id (objectsAllOpts callerLimit defaultLimit)
        pages.length "" = some pages) := by
  refine ⟨fun h => by simp [objectsAllOpts, h],
    fun h => by simp [objectsAllOpts, h], fun h => ⟨?_, ?_⟩, fun h => ?_⟩
  · exact objectsWalkLoop_walkTrace fetch id _ fuel "" pages h
  · simp [objectNamesAll, h]
  · exact walkTrace_objectsWalkLoop fetch id _ "" pages h

/-- Witness for `objectNamesAll_pagination_spec`: a server holding
`a b c d e` paged with limit 2 (pages `[a,b]`, `[c,d]`, `[e]`, the
second fetched with marker `b`, the third with marker `d`); the walk
concatenates them back. -/
theorem objectNamesAll_pagination_spec_witness :
    ((2 : Nat) ≠ 0) ∧
    (objectsWalkLoop
        (fun l m =>
          if l = 2 then
            if m = "" then ["a", "b"]
            else if m = "b" then ["c", "d"]
            else if m = "d" then ["e"]
            else []
          else [])
        id (objectsAllOpts 2 10000) 3 "" = some [["a", "b"], ["c", "d"], ["e"]]) ∧
    WalkTrace
      (fun l m =>
        if l = 2 then
          if m = "" then ["a", "b"]
          else if m = "b" then ["c", "d"]
          else if m = "d" then ["e"]
          else []
        else [])
      id (objectsAllOpts 2 10000) "" [["a", "b"], ["c", "d"], ["e"]] ∧
    objectNamesAll
      (fun l m =>
        if l = 2 then
          if m = "" then ["a", "b"]
          else if m = "b" then ["c", "d"]
          else if m = "d" then ["e"]
          else []
        else [])
      2 10000 3 = some ["a", "b", "c", "d", "e"] := by
  have hloop : objectsWalkLoop
      (fun l m =>
        if l = 2 then
          if m = "" then ["a", "b"]
          else if m = "b" then ["c", "d"]
          else if m = "d" then ["e"]
          else []
        else [])
      id (objectsAllOpts 2 10000) 3 "" = some [["a", "b"], ["c", "d"], ["e"]] := by
    decide
  have hmain := (objectNamesAll_pagination_spec
    (fun l m =>
      if l = 2 then
        if m = "" then ["a", "b"]
        else if m = "b" then ["c", "d"]
        else if m = "d" then ["e"]
        else []
      else [])
    2 10000 3 [["a", "b"], ["c", "d"], ["e"]])
  obtain ⟨htrace, hall⟩ := hmain.2.2.1 hloop
  exact ⟨by decide, hloop, htrace, by simpa using hall⟩

/-- `fmt.Sprintf("%016d", n)` for a non-negative `n`: the decimal
digits left-padded with zeros to width 16. -/
def zeroPad16 (n : Nat) : String :=
  String.mk (List.replicate (16 - (toString n).length) '0') ++ toString n

/-- `getSegment`: `fmt.Sprintf("%s/%016d", segmentPath, partNumber)`. -/
def getSegment (segmentPath : String) (partNumber : Nat) : String :=
  segmentPath ++ "/" ++ zeroPad16 partNumber

/-- Result of the DLO segment enumeration: the reconciled segment list
or the first unexpected error. -/
inductive SegResult where
  | ok (segments : List Object)
  | err (e : Err)
  deriving DecidableEq, Repr

/-- Result of the `c.Object` HEAD issued for a part number missing from
the container listing. -/
inductive HeadResult where
  | found (o : Object)
  | notFound
  | otherError (e : Err)
  deriving DecidableEq, Repr

/-- The Go slice insertion of `getAllDLOSegments`:
`segments = append(segments[:segmentNumber], segments[segmentNumber-1:]...)`
followed by `segments[segmentNumber-1] = segment` when
`segmentNumber <= len(segments)`, else `append(segments, segment)`. -/
def goInsertSegment (segments : List Object) (k : Nat) (o : Object) : List Object :=
  if k ≤ segments.length then
    (segments.take k ++ segments.drop (k - 1)).set (k - 1) o
  else
    segments ++ [o]

/-- Insertion at position `k` (1-based) as the claim words it. -/
def insertAtPos (segments : List Object) (k : Nat) (o : Object) : List Object :=
  segments.take (k - 1) ++ o :: segments.drop (k - 1)

theorem goInsertSegment_eq_insertAtPos (segments : List Object) (k : Nat)
    (o : Object) (hk : 1 ≤ k) :
    goInsertSegment segments k o = insertAtPos segments k o := by
  unfold goInsertSegment insertAtPos
  by_cases hle : k ≤ segments.length
  · rw [if_pos hle]
    have hlen : (segments.take k ++ segments.drop (k - 1)).length =
        segments.length + (segments.length - (k - 1)) - (segments.length - k) + 0 := by
      simp [List.length_append]
      omega
    have hlt : k - 1 < (segments.take k ++ segments.drop (k - 1)).length := by
      simp [List.length_append]
      omega
    rw [List.set_eq_take_cons_drop o hlt]
    congr 1
    · rw [List.take_append_eq_append_take, List.take_take]
      have h1 : min (k - 1) k = k - 1 := by omega
      have h2 : k - 1 - (segments.take k).length = 0 := by
        simp [List.length_take]
        omega
      rw [h1, h2]
      simp
    · congr 1
      rw [List.drop_append_eq_append_drop]
      have h1 : (k - 1) + 1 = k := by omega
      have h2 : (segments.take k).drop k = [] := by
        apply List.drop_eq_nil_of_le
        simp
      have h3 : k - (segments.take k).length = 0 := by
        simp [List.length_take]
        omega
      rw [h1, h2, h3]
      simp
  · rw [if_neg hle]
    have h1 : segments.take (k - 1) = segments := List.take_of_length_le (by omega)
    have h2 : segments.drop (k - 1) = [] := List.drop_eq_nil_of_le (by omega)
    rw [h1, h2]

/-- The reconciliation loop of `getAllDLOSegments`: walk part numbers
`k = 1, 2, 3, …`; a part whose canonical name appears in the container
listing (`names`, the name set of the initial listing) is skipped; for
a missing name a HEAD is issued — on success the segment is inserted at
position `k`, on `ObjectNotFound` the walk stops returning the
accumulated list, and any other error aborts.  `none` means the fuel
ran out (the Go loop is unbounded). -/
def getAllDLOSegmentsLoop (head : Nat → HeadResult) (names : List String)
    (segmentPath : String) : Nat → Nat → List Object → Option SegResult
  | 0, _, _ => none
  | fuel + 1, k, segments =>
    if names.contains (getSegment segmentPath k) then
      getAllDLOSegmentsLoop head names segmentPath fuel (k + 1) segments
    else
      match head k with
      | HeadResult.found o =>
        getAllDLOSegmentsLoop head names segmentPath fuel (k + 1)
          (goInsertSegment segments k o)
      | HeadResult.notFound => some (SegResult.ok segments)
      | HeadResult.otherError e => some (SegResult.err e)

/-- `getAllDLOSegments`: start from the plain container listing
(`listing`, with its name set) and reconcile beginning at part 1. -/
def getAllDLOSegments (head : Nat → HeadResult) (listing : List Object)
    (segmentPath : String) (fuel : Nat) : Option SegResult :=
  getAllDLOSegmentsLoop head (listing.map Object.Name) segmentPath fuel 1 listing

/-- **C3.** The DLO segment enumerator walks part numbers `1, 2, 3, …`
sequentially starting at 1; a part number whose canonical name
`<segmentPath>/<016-digit k>` appears in the container listing is
skipped without a HEAD; for a missing name a HEAD is issued, and when
it succeeds the segment is inserted at position `k` (1-based — the
resulting list is `take (k-1) ++ [segment] ++ drop (k-1)`, so the new
segment sits at index `k-1` whenever `k ≤ length + 1`, which is every
reachable state); the walk terminates at the first part number whose
HEAD returns `ObjectNotFound`, returning the segments accumulated so
far, and surfaces any other HEAD error. -/
theorem getAllDLOSegments_spec (head : Nat → HeadResult) (listing segments : List Object)
    (names : List String) (path : String) (fuel k : Nat) (o : Object) (e : Err) :
    (getAllDLOSegments head listing path fuel =
      getAllDLOSegmentsLoop head (listing.map Object.Name) path fuel 1 listing) ∧
    (names.contains (getSegment path k) = true →
      getAllDLOSegmentsLoop head names path (fuel + 1) k segments =
        getAllDLOSegmentsLoop head names path fuel (k + 1) segments) ∧
    (names.contains (getSegment path k) = false → head k = HeadResult.found o →
      1 ≤ k →
      getAllDLOSegmentsLoop head names path (fuel + 1) k segments =
        getAllDLOSegmentsLoop head names path fuel (k + 1)
          (segments.take (k - 1) ++ o :: segments.drop (k - 1))) ∧
    (1 ≤ k → k ≤ segments.length + 1 →
      (insertAtPos segments k o)[k - 1]? = some o) ∧
    (names.contains (getSegment path k) = false → head k = HeadResult.notFound →
      getAllDLOSegmentsLoop head names path (fuel + 1) k segments =
        some (SegResult.ok segments)) ∧
    (names.contains (getSegment path k) = false →
      head k = HeadResult.otherError e →
      getAllDLOSegmentsLoop head names path (fuel + 1) k segments =
        some (SegResult.err e)) := by
  refine ⟨rfl, fun hc => ?_, fun hc hh hk => ?_, fun hk hk2 => ?_,
    fun hc hh => ?_, fun hc hh => ?_⟩
  · rw [getAllDLOSegmentsLoop, if_pos hc]
  · have h1 : getAllDLOSegmentsLoop head names path (fuel + 1) k segments =
        getAllDLOSegmentsLoop head names path fuel (k + 1) (goInsertSegment segments k o) := by
      rw [getAllDLOSegmentsLoop, if_neg (by simpa using hc), hh]
    rw [h1, goInsertSegment_eq_insertAtPos segments k o hk]
    rfl
  · unfold insertAtPos
    rw [List.getElem?_append_right (by simp)]
    have hlen : k - 1 - (segments.take (k - 1)).length = 0 := by
      simp [List.length_take]
      omega
    rw [hlen]
    simp
  · rw [getAllDLOSegmentsLoop, if_neg (by simpa using hc), hh]
  · rw [getAllDLOSegmentsLoop, if_neg (by simpa using hc), hh]

/-- Witness for `getAllDLOSegments_spec`: a listing holding only part 3
of a three-part object; parts 1 and 2 are found by HEAD and inserted at
positions 1 and 2, part 4 returns `ObjectNotFound` and the walk stops
with the three parts in order. -/
theorem getAllDLOSegments_spec_witness :
    ([getSegment "p" 3].contains (getSegment "p" 1) = false ∧
      [getSegment "p" 3].contains (getSegment "p" 3) = true ∧
      (insertAtPos [⟨getSegment "p" 2, 1, "h2"⟩, ⟨getSegment "p" 3, 1, "h3"⟩] 1
        ⟨getSegment "p" 1, 1, "h1"⟩)[0]? = some ⟨getSegment "p" 1, 1, "h1"⟩) ∧
    getAllDLOSegments
      (fun k => if k ≤ 3 then HeadResult.found ⟨getSegment "p" k, 1, "h"⟩
                else HeadResult.notFound)
      [⟨getSegment "p" 3, 1, "h3"⟩] "p" 5 =
      some (SegResult.ok
        [⟨getSegment "p" 1, 1, "h"⟩, ⟨getSegment "p" 2, 1, "h"⟩,
          ⟨getSegment "p" 3, 1, "h3"⟩]) := by
  refine ⟨⟨?_, ?_, ?_⟩, ?_⟩
  · decide
  · decide
  · exact (getAllDLOSegments_spec (fun _ => HeadResult.notFound) [] _ [] "p" 0 1
      ⟨getSegment "p" 1, 1, "h1"⟩ Err.objectNotFound).2.2.2.1 (by omega) (by omega)
  · decide

/-- Truncation to a 32-bit word. -/
def w32 (n : Nat) : Nat := n % 4294967296

/-- 32-bit rotate left by `k` (for `0 < k < 32` and `x < 2^32`). -/
def rotl32 (k x : Nat) : Nat := w32 ((x <<< k) ||| (x >>> (32 - k)))

/-- Big-endian 32-bit words from a byte list (the 16 words of a SHA-1
block). -/
def toWords : List Nat → List Nat
  | b0 :: b1 :: b2 :: b3 :: rest =>
    (((b0 * 256 + b1) * 256 + b2) * 256 + b3) :: toWords rest
  | _ => []

/-- SHA-1 message-schedule extension: prepend the next word
`rotl1 (w[t-3] ^ w[t-8] ^ w[t-14] ^ w[t-16])` to the reversed word
list, `n` times (64 for a block). -/
def sha1Extend : Nat → List Nat → List Nat
  | 0, acc => acc
  | n + 1, acc =>
    sha1Extend n
      (rotl32 1
        ((acc.getD 2 0) ^^^ (acc.getD 7 0) ^^^ (acc.getD 13 0) ^^^ (acc.getD 15 0)) :: acc)

/-- The five 32-bit SHA-1 chaining registers. -/
structure Sha1State where
  a : Nat
  b : Nat
  c : Nat
  d : Nat
  e : Nat
  deriving DecidableEq, Repr

/-- The SHA-1 round function for round `i`. -/
def sha1F (i b c d : Nat) : Nat :=
  if i < 20 then (b &&& c) ||| ((b ^^^ 4294967295) &&& d)
  else if i < 40 then b ^^^ c ^^^ d
  else if i < 60 then (b &&& c) ||| (b &&& d) ||| (c &&& d)
  else b ^^^ c ^^^ d

/-- The SHA-1 round constants. -/
def sha1K (i : Nat) : Nat :=
  if i < 20 then 1518500249
  else if i < 40 then 1859775393
  else if i < 60 then 2400959708
  else 3395469782

/-- The 80 SHA-1 rounds over the extended schedule. -/
def sha1Rounds : Nat → List Nat → Sha1State → Sha1State
  | _, [], st => st
  | i, w :: ws, st =>
    sha1Rounds (i + 1) ws
      ⟨w32 (rotl32 5 st.a + sha1F i st.b st.c st.d + st.e + sha1K i + w),
        st.a, rotl32 30 st.b, st.c, st.d⟩

/-- Compress one 64-byte block into the chaining state. -/
def sha1Compress (st : Sha1State) (block : List Nat) : Sha1State :=
  let ws := (sha1Extend 64 (toWords block).reverse).reverse
  let r := sha1Rounds 0 ws st
  ⟨w32 (st.a + r.a), w32 (st.b + r.b), w32 (st.c + r.c), w32 (st.d + r.d),
    w32 (st.e + r.e)⟩

/-- Process `n` 64-byte blocks. -/
def sha1Process : Nat → List Nat → Sha1State → Sha1State
  | 0, _, st => st
  | n + 1, bytes, st => sha1Process n (bytes.drop 64) (sha1Compress st (bytes.take 64))

/-- Big-endian bytes of a 32-bit word. -/
def be32 (n : Nat) : List Nat :=
  [(n >>> 24) % 256, (n >>> 16) % 256, (n >>> 8) % 256, n % 256]

/-- Big-endian bytes of a 64-bit word (the SHA-1 length field). -/
def be64 (n : Nat) : List Nat :=
  [(n >>> 56) % 256, (n >>> 48) % 256, (n >>> 40) % 256, (n >>> 32) % 256,
    (n >>> 24) % 256, (n >>> 16) % 256, (n >>> 8) % 256, n % 256]

/-- SHA-1 padding: `0x80`, zeros to 56 mod 64, then the bit length. -/
def sha1Pad (msg : List Nat) : List Nat :=
  msg ++ 128 :: List.replicate ((120 - ((msg.length + 1) % 64)) % 64) 0 ++
    be64 (8 * msg.length)

/-- The SHA-1 initial chaining state. -/
def sha1Init : Sha1State := ⟨1732584193, 4023233417, 2562383102, 271733878, 3285377520⟩

/-- SHA-1 of a byte list (the 20-byte digest), as computed by Go's
`crypto/sha1`.  (Sanity theorem below: `sha1 [] =` the well-known empty
digest.) -/
def sha1 (msg : List Nat) : List Nat :=
  let padded := sha1Pad msg
  let st := sha1Process (padded.length / 64) padded sha1Init
  be32 st.a ++ be32 st.b ++ be32 st.c ++ be32 st.d ++ be32 st.e

/-- Lowercase hex digit, as in Go's `encoding/hex` table. -/
def hexDigit (n : Nat) : Char :=
  List.getD "0123456789abcdef".data n '0'

/-- The two hex characters of one byte (`hextable[b>>4], hextable[b&0x0f]`;
bytes are `< 256`, the extra `% 16` encodes the byte width on `Nat`). -/
def hexByte (b : Nat) : List Char :=
  [hexDigit (b / 16 % 16), hexDigit (b % 16)]

/-- `hex.EncodeToString`, producing the character list. -/
def hexChars (bs : List Nat) : List Char :=
  (bs.map hexByte).flatten

/-- UTF-8 encoding of one code point (Go's `[]byte(string)`). -/
def utf8EncodeChar (c : Nat) : List Nat :=
  if c < 128 then [c]
  else if c < 2048 then [192 + c / 64, 128 + c % 64]
  else if c < 65536 then [224 + c / 4096, 128 + c / 64 % 64, 128 + c % 64]
  else [240 + c / 262144, 128 + c / 4096 % 64, 128 + c / 64 % 64, 128 + c % 64]

/-- `[]byte(s)`: the UTF-8 bytes of a Go string. -/
def stringToBytes (s : String) : List Nat :=
  (s.data.map (fun c => utf8EncodeChar c.toNat)).flatten

/-- `strings.TrimRight(s, "/")`. -/
def goTrimRightSlash (s : String) : String :=
  String.mk ((s.data.reverse.dropWhile (fun c => c == '/')).reverse)

/-- `strings.TrimLeft(s, "/")`. -/
def goTrimLeftSlash (s : String) : String :=
  String.mk (s.data.dropWhile (fun c => c == '/'))

/-- The hex characters `swiftSegmentPath` slices up:
`hex.EncodeToString(checksum.Sum(append([]byte(path), random...)))`.
Go's `hash.Hash.Sum(b)` *appends the digest of the data written so far*
(here: none) *to `b`*, so this is the hex of
`path-bytes ‖ random ‖ SHA1("")` — the input is never hashed. -/
def segmentPathHexChars (path : String) (random : List Nat) : List Char :=
  hexChars (stringToBytes path ++ random ++ sha1 [])

/-- `swiftSegmentPath` from the source: 32 random bytes, the hex string
above, then `TrimLeft(TrimRight("segments/"+hex[0:3]+"/"+hex[3:], "/"), "/")`. -/
def swiftSegmentPath (path : String) (random : List Nat) : String :=
  goTrimLeftSlash (goTrimRightSlash
    ("segments/" ++ String.mk ((segmentPathHexChars path random).take 3) ++ "/" ++
      String.mk ((segmentPathHexChars path random).drop 3)))

/-- The prefix as the claim words it: `segments/<first 3>/<rest>` of the
hex encoding of the SHA-1 *digest* of (object name ‖ 256 random bits). -/
def claimedSegmentPath (path : String) (random : List Nat) : String :=
  "segments/" ++ String.mk ((hexChars (sha1 (stringToBytes path ++ random))).take 3) ++
    "/" ++ String.mk ((hexChars (sha1 (stringToBytes path ++ random))).drop 3)

set_option maxRecDepth 200000 in
/-- Sanity check of the SHA-1 embedding: the digest of the empty message
is the well-known `da39a3ee5e6b4b0d3255bfef95601890afd80709`. -/
theorem sha1_nil_digest :
    String.mk (hexChars (sha1 [])) = "da39a3ee5e6b4b0d3255bfef95601890afd80709" := by
  decide

set_option maxRecDepth 400000 in
/-- **C6 (counterexample).** The claim says the generated prefix hex is
the SHA-1 digest of the object name concatenated with the 256 random
bits.  It is not: `checksum.Sum(append([]byte(path), random...))`
*appends* the digest of the empty message to the name-and-random bytes
instead of hashing them, so for object name `"o"` and 32 zero random
bytes the code's hex string has `2*(1+32+20) = 106` characters — the
raw bytes followed by `SHA1("")` — while a digest would have 40; the
two prefixes differ. -/
theorem swiftSegmentPath_claim_C6_counterexample :
    swiftSegmentPath "o" (List.replicate 32 0) ≠
      claimedSegmentPath "o" (List.replicate 32 0) ∧
    (segmentPathHexChars "o" (List.replicate 32 0)).length = 106 ∧
    (hexChars (sha1 (stringToBytes "o" ++ List.replicate 32 0))).length = 40 := by
  refine ⟨by decide, by decide, by decide⟩

theorem sha1_length (msg : List Nat) : (sha1 msg).length = 20 := by
  simp [sha1, be32]

theorem hexChars_length (bs : List Nat) : (hexChars bs).length = 2 * bs.length := by
  induction bs with
  | nil => rfl
  | cons b t ih =>
    show (hexByte b ++ hexChars t).length = 2 * (t.length + 1)
    rw [List.length_append, ih]
    simp [hexByte]
    omega

theorem hexChars_ne_slash (bs : List Nat) (c : Char) (hc : c ∈ hexChars bs) :
    c ≠ '/' := by
  induction bs with
  | nil => simp [hexChars] at hc
  | cons b t ih =>
    simp only [hexChars, List.map_cons, List.flatten_cons, List.mem_append] at hc
    rcases hc with hc | hc
    · have h16 : ∀ n, n < 16 → hexDigit n ≠ '/' := by decide
      simp only [hexByte, List.mem_cons, List.not_mem_nil, or_false] at hc
      rcases hc with rfl | rfl
      · exact h16 _ (Nat.mod_lt _ (by norm_num))
      · exact h16 _ (Nat.mod_lt _ (by norm_num))
    · exact ih hc

theorem goTrimRightSlash_of_getLast (s : String) (c : Char)
    (h : s.data.getLast? = some c) (hc : c ≠ '/') : goTrimRightSlash s = s := by
  have hne : (c == '/') = false := by simpa using hc
  have hdw : s.data.reverse.dropWhile (fun ch => ch == '/') = s.data.reverse := by
    cases hr : s.data.reverse with
    | nil => rfl
    | cons x xs =>
      have hrev : s.data.reverse.head? = some c := by
        rw [List.head?_reverse]
        exact h
      rw [hr] at hrev
      obtain rfl : x = c := by simpa using hrev
      rw [List.dropWhile_cons, hne]
      simp
  unfold goTrimRightSlash
  rw [hdw, List.reverse_reverse]

theorem goTrimLeftSlash_of_head (s : String) (c : Char)
    (h : s.data.head? = some c) (hc : c ≠ '/') : goTrimLeftSlash s = s := by
  have hne : (c == '/') = false := by simpa using hc
  have hdw : s.data.dropWhile (fun ch => ch == '/') = s.data := by
    cases hh : s.data with
    | nil => rfl
    | cons x xs =>
      rw [hh] at h
      obtain rfl : x = c := by simpa using h
      rw [List.dropWhile_cons, hne]
      simp
  unfold goTrimLeftSlash
  rw [hdw]

/-- **C6 (amended).** Segment names: `getSegment` produces
`<segmentPath>/<partNumber zero-padded to 16 decimal digits>` (16
characters whenever the part number has at most 16 digits), and the
first written part — both the plain-object promotion
`getSegment(segmentPath, 1)` and the writer loops starting at
`partNumber := 1` — is `<segmentPath>/0000000000000001`.  The generated
prefix, however, is *not* built from a SHA-1 digest of the name and
random bits: `swiftSegmentPath` equals `segments/<h₀h₁h₂>/<h₃…>` where
`h` is the hex encoding of the *unhashed* bytes
`objectName ‖ random ‖ SHA1("")` (the `Sum` call appends the digest of
the empty write stream), of length `2·(|name| + |random| + 20)`; the
two `Trim` calls never remove anything because the hex alphabet has no
`/` and the string does not end in `/`. -/
theorem swiftSegmentPath_spec (path : String) (random : List Nat) (k : Nat) :
    (getSegment path k = path ++ "/" ++ zeroPad16 k) ∧
    ((toString k).length ≤ 16 → (zeroPad16 k).length = 16) ∧
    (getSegment path 1 = path ++ "/" ++ "0000000000000001") ∧
    (segmentPathHexChars path random =
      hexChars (stringToBytes path ++ random ++ sha1 [])) ∧
    ((segmentPathHexChars path random).length =
      2 * ((stringToBytes path).length + random.length + 20)) ∧
    (swiftSegmentPath path random =
      "segments/" ++ String.mk ((segmentPathHexChars path random).take 3) ++ "/" ++
        String.mk ((segmentPathHexChars path random).drop 3)) := by
  refine ⟨rfl, fun hlen => ?_, ?_, rfl, ?_, ?_⟩
  · have h1 : (zeroPad16 k).length =
        (16 - (toString k).length) + (toString k).length := by
      rw [zeroPad16, String.length_append]
      congr 1
      show (List.replicate (16 - (toString k).length) '0').length =
        16 - (toString k).length
      simp
    omega
  · show path ++ "/" ++ zeroPad16 1 = path ++ "/" ++ "0000000000000001"
    congr 1
  · rw [segmentPathHexChars, hexChars_length]
    have h20 := sha1_length ([] : List Nat)
    simp only [List.length_append, h20]
  · have hxlen : 40 ≤ (segmentPathHexChars path random).length := by
      rw [segmentPathHexChars, hexChars_length]
      have h20 := sha1_length ([] : List Nat)
      simp only [List.length_append, h20]
      omega
    have hdata :
        ("segments/" ++ String.mk ((segmentPathHexChars path random).take 3) ++ "/" ++
          String.mk ((segmentPathHexChars path random).drop 3)).data =
        (("segments/".data ++ (segmentPathHexChars path random).take 3) ++ ['/']) ++
          (segmentPathHexChars path random).drop 3 := rfl
    have hdrop_ne : (segmentPathHexChars path random).drop 3 ≠ [] := by
      apply List.ne_nil_of_length_pos
      rw [List.length_drop]
      omega
    obtain ⟨c, hc⟩ : ∃ c, ((segmentPathHexChars path random).drop 3).getLast? = some c := by
      cases hg : ((segmentPathHexChars path random).drop 3).getLast? with
      | none => exact absurd (List.getLast?_eq_none_iff.mp hg) hdrop_ne
      | some c => exact ⟨c, rfl⟩
    have hlast :
        ("segments/" ++ String.mk ((segmentPathHexChars path random).take 3) ++ "/" ++
          String.mk ((segmentPathHexChars path random).drop 3)).data.getLast? = some c := by
      rw [hdata, List.getLast?_append_of_ne_nil _ hdrop_ne]
      exact hc
    have hcnot : c ≠ '/' :=
      hexChars_ne_slash _ c (List.mem_of_mem_drop (List.mem_of_mem_getLast? hc))
    have htrimr := goTrimRightSlash_of_getLast _ c hlast hcnot
    have hhead :
        ("segments/" ++ String.mk ((segmentPathHexChars path random).take 3) ++ "/" ++
          String.mk ((segmentPathHexChars path random).drop 3)).data.head? = some 's' := rfl
    have htriml := goTrimLeftSlash_of_head _ 's' hhead (by decide)
    show goTrimLeftSlash (goTrimRightSlash _) = _
    rw [htrimr, htriml]

/-- Witness for `swiftSegmentPath_spec`: evaluated at object name `"x"`,
32 zero random bytes and part number 7 — the part name is
`x-prefix/0000000000000007` (16-digit pad) and the generated prefix is
the unhashed hex with the documented shape. -/
theorem swiftSegmentPath_spec_witness :
    ((toString (7 : Nat)).length ≤ 16 ∧ (zeroPad16 7).length = 16) ∧
    getSegment "pp" 7 = "pp" ++ "/" ++ zeroPad16 7 ∧
    swiftSegmentPath "x" (List.replicate 32 0) =
      "segments/" ++
        String.mk ((segmentPathHexChars "x" (List.replicate 32 0)).take 3) ++ "/" ++
        String.mk ((segmentPathHexChars "x" (List.replicate 32 0)).drop 3) := by
  refine ⟨⟨by decide, ?_⟩, ?_, ?_⟩
  · exact (swiftSegmentPath_spec "x" [] 7).2.1 (by decide)
  · exact (swiftSegmentPath_spec "pp" [] 7).1
  · exact (swiftSegmentPath_spec "x" (List.replicate 32 0) 7).2.2.2.2.2

/-- **C2.** For every HTTP status code `s`, status text and per-call error
map `m`: when `m` is supplied and has an entry for `s`, `parseHeaders`
returns that error; otherwise a status in 200..299 yields success
(no error) and any other status yields the generic error whose message is
`"HTTP Error: <s>: <status text>"`. -/
theorem parseHeaders_spec (s : Int) (text : String) (m : ErrMap) (e : Err) :
    (m.lookup s = some e → parseHeaders s text (some m) = some e) ∧
    (m.lookup s = none → 200 ≤ s → s ≤ 299 → parseHeaders s text (some m) = none) ∧
    (m.lookup s = none → (s < 200 ∨ 299 < s) →
      parseHeaders s text (some m) =
        some (Err.errorsNew ("HTTP Error: " ++ toString s ++ ": " ++ text))) ∧
    (200 ≤ s → s ≤ 299 → parseHeaders s text none = none) ∧
    ((s < 200 ∨ 299 < s) →
      parseHeaders s text none =
        some (Err.errorsNew ("HTTP Error: " ++ toString s ++ ": " ++ text))) := by
  refine ⟨fun h => ?_, fun h h1 h2 => ?_, fun h h' => ?_, fun h1 h2 => ?_, fun h' => ?_⟩
  · simp [parseHeaders, h]
  · simp [parseHeaders, h, httpErrorMsg]
    omega
  · have : s < 200 ∨ s > 299 := by omega
    simp [parseHeaders, h, httpErrorMsg]
    omega
  · simp [parseHeaders, httpErrorMsg]
    omega
  · simp [parseHeaders, httpErrorMsg]
    omega

/-- Witness for `parseHeaders_spec`: evaluated on the object error map at
status 404, at a 2xx status and at status 500. -/
theorem parseHeaders_spec_witness :
    (objectErrorMap.lookup 404 = some Err.objectNotFound ∧
      parseHeaders 404 "404 Not Found" (some objectErrorMap) = some Err.objectNotFound) ∧
    (parseHeaders 204 "204 No Content" (some objectErrorMap) = none) ∧
    (parseHeaders 500 "500 Internal Server Error" (some objectErrorMap) =
      some (Err.errorsNew "HTTP Error: 500: 500 Internal Server Error")) := by
  have h404 : objectErrorMap.lookup (404 : Int) = some Err.objectNotFound := by decide
  have h204 : objectErrorMap.lookup (204 : Int) = none := by decide
  have h500 : objectErrorMap.lookup (500 : Int) = none := by decide
  refine ⟨⟨h404, (parseHeaders_spec 404 "404 Not Found" objectErrorMap Err.objectNotFound).1 h404⟩, ?_, ?_⟩
  · exact (parseHeaders_spec 204 "204 No Content" objectErrorMap Err.objectNotFound).2.1 h204
      (by norm_num) (by norm_num)
  · have := (parseHeaders_spec 500 "500 Internal Server Error" objectErrorMap
      Err.objectNotFound).2.2.1 h500 (Or.inr (by norm_num))
    simpa using this

end Swift
